import Mathlib

/-!
Verification development for the Noema-Bot analysis pipeline
(`scripts/analyze.py`).

The Python source is shallowly embedded below:

* a pandas `DataFrame` becomes `Table`: an ordered list of named columns,
  each either numeric (`List (Option ℚ)`, `none` = NaN/missing) or
  non-numeric (`List (Option String)`);
* numeric cell values are modelled as exact rationals; the float
  thresholds `0.5` and `0.8` of the source become the rationals 1/2 and
  4/5 (written `mkRat` so the kernel can evaluate them; lemmas
  `mkRat_half_eq_div` / `uratioOf_eq_div` / `missFrac_eq_div` record
  that this is ordinary division);
* `list.sort(key=...)` (Timsort, stable) is modelled by a stable
  insertion sort `sortByKey`;
* file-system effects of the script are modelled as an explicit event
  trace (`Event`), with the external collaborators (pandas `describe`,
  matplotlib rendering, table parsing) passed in as a `Collab` record
  of uninterpreted functions;
* paths are rendered relative to the repository root: the source's
  `DATA_DIR` is `"data"`, `OUT_DIR` is `"reports"`, and
  `Path("report_summary.json")` (a path relative to the process working
  directory) is the `Dest.cwd` destination.
-/

namespace Noema

/-! ### A stable sort by key, modelling Python's stable `list.sort(key=...)`

The comparator is passed as a `Bool` function so that both instantiations
(rational keys and Python string comparison) evaluate in the kernel. -/

def insertByKey {α β : Type} (le : β → β → Bool) (k : α → β) (x : α) : List α → List α
  | [] => [x]
  | y :: ys => if le (k x) (k y) then x :: y :: ys else y :: insertByKey le k x ys

def sortByKey {α β : Type} (le : β → β → Bool) (k : α → β) : List α → List α
  | [] => []
  | x :: xs => insertByKey le k x (sortByKey le k xs)

/-- The decidable `≤` of a linear order as a `Bool` comparator. -/
def decLe {β : Type} [LinearOrder β] : β → β → Bool := fun a b => decide (a ≤ b)

theorem mem_insertByKey {α β : Type} (le : β → β → Bool) (k : α → β) (x z : α) :
    ∀ ys : List α, z ∈ insertByKey le k x ys ↔ z = x ∨ z ∈ ys
  | [] => by simp [insertByKey]
  | y :: ys => by
    by_cases h : le (k x) (k y) = true
    · simp [insertByKey, h]
    · simp only [insertByKey, if_neg h, List.mem_cons, mem_insertByKey le k x z ys]
      tauto

theorem mem_sortByKey {α β : Type} (le : β → β → Bool) (k : α → β) (z : α) :
    ∀ l : List α, z ∈ sortByKey le k l ↔ z ∈ l
  | [] => Iff.rfl
  | x :: xs => by
    simp only [sortByKey, mem_insertByKey, List.mem_cons, mem_sortByKey le k z xs]

theorem perm_insertByKey {α β : Type} (le : β → β → Bool) (k : α → β) (x : α) :
    ∀ ys : List α, (insertByKey le k x ys).Perm (x :: ys)
  | [] => List.Perm.refl _
  | y :: ys => by
    by_cases h : le (k x) (k y) = true
    · simp [insertByKey, h]
    · simpa [insertByKey, if_neg h] using
        ((perm_insertByKey le k x ys).cons y).trans (List.Perm.swap x y ys)

theorem perm_sortByKey {α β : Type} (le : β → β → Bool) (k : α → β) :
    ∀ l : List α, (sortByKey le k l).Perm l
  | [] => List.Perm.refl _
  | x :: xs =>
    (perm_insertByKey le k x (sortByKey le k xs)).trans ((perm_sortByKey le k xs).cons x)

/-- The lexicographic relation that captures stable sortedness: either the key
strictly increases, or the key ties and the (injective) input position
strictly increases. -/
def lexKey {α β : Type} [LinearOrder β] (k : α → β) (p : α → ℕ) (a b : α) : Prop :=
  k a < k b ∨ (k a = k b ∧ p a < p b)

theorem insertByKey_pairwise {α β : Type} [LinearOrder β] (k : α → β) (p : α → ℕ) (x : α) :
    ∀ ys : List α, ys.Pairwise (lexKey k p) → (∀ y ∈ ys, p x < p y) →
      (insertByKey decLe k x ys).Pairwise (lexKey k p)
  | [], _, _ => List.pairwise_singleton _ _
  | y :: ys, hys, hx => by
    rcases List.pairwise_cons.1 hys with ⟨hy, hys'⟩
    by_cases h : k x ≤ k y
    · have hxy : ∀ z ∈ y :: ys, lexKey k p x z := by
        intro z hz
        rcases List.mem_cons.1 hz with rfl | hz'
        · rcases lt_or_eq_of_le h with h' | h'
          · exact Or.inl h'
          · exact Or.inr ⟨h', hx z (List.mem_cons_self _ _)⟩
        · have hyz := hy z hz'
          rcases lt_or_eq_of_le h with h' | h'
          · exact Or.inl (lt_of_lt_of_le h' (hyz.elim le_of_lt (fun w => le_of_eq w.1)))
          · rcases hyz with h'' | h''
            · exact Or.inl (h' ▸ h'')
            · exact Or.inr ⟨h'.trans h''.1, hx z (List.mem_cons_of_mem _ hz')⟩
      simpa [insertByKey, decLe, h] using List.pairwise_cons.2 ⟨hxy, hys⟩
    · have hlt : k y < k x := lt_of_not_le h
      have hyall : ∀ z ∈ insertByKey decLe k x ys, lexKey k p y z := by
        intro z hz
        rcases (mem_insertByKey decLe k x z ys).1 hz with rfl | hz'
        · exact Or.inl hlt
        · exact hy z hz'
      have htail : (insertByKey decLe k x ys).Pairwise (lexKey k p) :=
        insertByKey_pairwise k p x ys hys' (fun z hz => hx z (List.mem_cons_of_mem _ hz))
      simpa [insertByKey, decLe, h] using List.pairwise_cons.2 ⟨hyall, htail⟩

theorem sortByKey_pairwise {α β : Type} [LinearOrder β] (k : α → β) (p : α → ℕ) :
    ∀ l : List α, l.Pairwise (fun a b => p a < p b) →
      (sortByKey decLe k l).Pairwise (lexKey k p)
  | [], _ => List.Pairwise.nil
  | x :: xs, hl => by
    rcases List.pairwise_cons.1 hl with ⟨hx, hxs⟩
    exact insertByKey_pairwise k p x (sortByKey decLe k xs)
      (sortByKey_pairwise k p xs hxs)
      (fun y hy => hx y ((mem_sortByKey decLe k y xs).1 hy))

/-- In a duplicate-free list, positions (via `indexOf`) strictly increase
along the list. -/
theorem nodup_pairwise_indexOf {α : Type} [DecidableEq α] :
    ∀ m : List α, m.Nodup → m.Pairwise (fun a b => m.indexOf a < m.indexOf b)
  | [], _ => List.Pairwise.nil
  | c :: m, h => by
    rcases List.nodup_cons.1 h with ⟨hc, hm⟩
    refine List.pairwise_cons.2 ⟨?_, ?_⟩
    · intro b hb
      have hbc : b ≠ c := fun w => hc (w ▸ hb)
      rw [List.indexOf_cons_self, List.indexOf_cons_ne _ (Ne.symm hbc)]
      exact Nat.succ_pos _
    · refine (nodup_pairwise_indexOf m hm).imp_of_mem ?_
      intro a b ha hb hab
      have hac : a ≠ c := fun w => hc (w ▸ ha)
      have hbc : b ≠ c := fun w => hc (w ▸ hb)
      rw [List.indexOf_cons_ne _ (Ne.symm hac), List.indexOf_cons_ne _ (Ne.symm hbc)]
      exact Nat.succ_lt_succ hab

theorem sublist_pairwise_indexOf {α : Type} [DecidableEq α] {l m : List α}
    (hs : l.Sublist m) (h : m.Nodup) :
    l.Pairwise (fun a b => m.indexOf a < m.indexOf b) :=
  (nodup_pairwise_indexOf m h).sublist hs

/-! ### The data model: tables of named columns -/

/-- One column of a loaded table.  `num` is a pandas numeric-dtype column
(`none` = NaN); `text` is any non-numeric column. -/
inductive ColData : Type
  | num (vals : List (Option ℚ))
  | text (vals : List (Option String))
deriving DecidableEq

structure Col : Type where
  name : String
  data : ColData
deriving DecidableEq

structure Table : Type where
  cols : List Col
deriving DecidableEq

def Col.colLen (c : Col) : ℕ :=
  match c.data with
  | .num v => v.length
  | .text v => v.length

def Col.noneCount (c : Col) : ℕ :=
  match c.data with
  | .num v => (v.filter Option.isNone).length
  | .text v => (v.filter Option.isNone).length

/-- `df[c].isna().mean()`: the fraction of missing values in the column.
(`mkRat a b = a / b`; see `missFrac_eq_div`.  For an empty column pandas
would give NaN, and this value is never used there: an empty numeric
column is skipped as `all-NaN` before the sort.) -/
def Col.missFrac (c : Col) : ℚ := mkRat c.noneCount c.colLen

theorem missFrac_eq_div (c : Col) :
    c.missFrac = (c.noneCount : ℚ) / (c.colLen : ℚ) := by
  simp [Col.missFrac, Rat.mkRat_eq_div]

def Col.isNumCol (c : Col) : Bool :=
  match c.data with
  | .num _ => true
  | .text _ => false

def Col.numVals (c : Col) : List (Option ℚ) :=
  match c.data with
  | .num v => v
  | .text _ => []

/-- `df.shape[0]` (all columns of a `DataFrame` have the table's row count). -/
def Table.nrows (t : Table) : ℕ := ((t.cols.head?).map Col.colLen).getD 0

/-- `df.shape[1]`. -/
def Table.ncols (t : Table) : ℕ := t.cols.length

/-- `df[name].isna().mean()` looked up by column name. -/
def colMissFrac (t : Table) (name : String) : ℚ :=
  ((t.cols.find? (fun c => c.name == name)).map Col.missFrac).getD 0

/-! ### The identifier-name pattern

`ID_LIKE_PATTERN = (?:^|_)(id|uuid|index|sampleid|subjectid|recordid|caseid|patientid)(?:$|_)`
with `re.IGNORECASE`, used via `.search`: some occurrence of one of the
tokens, case-insensitively, bounded on the left by the start of the string
or `_` and on the right by the end of the string or `_`. -/

def idTokens : List (List Char) :=
  ["id", "uuid", "index", "sampleid", "subjectid", "recordid", "caseid", "patientid"].map
    String.toList

def tokenMatchAt (cs : List Char) (i : ℕ) (tok : List Char) : Bool :=
  (((cs.drop i).take tok.length).map Char.toLower == tok)
    && (i == 0 || cs.get? (i - 1) == some '_')
    && (i + tok.length == cs.length || cs.get? (i + tok.length) == some '_')

def looksLikeId (name : String) : Bool :=
  let cs := name.toList
  (List.range (cs.length + 1)).any (fun i => idTokens.any (fun tok => tokenMatchAt cs i tok))

/-! ### The per-column classification signals (`numeric_cols`, lines 59-79) -/

/-- `pd.to_numeric(df[col], errors="coerce").dropna()`: the coercible values.
(On a numeric-dtype column `to_numeric` is the identity, so dropping the
missing markers is exactly `dropna`.) -/
def coercibleVals (vals : List (Option ℚ)) : List ℚ := vals.filterMap id

/-- `s_non.nunique()`: the number of distinct values. -/
def nuniqueQ (l : List ℚ) : ℕ := l.dedup.length

/-- `pd.api.types.is_integer_dtype(s_non) or np.all(np.floor(s_non) == s_non)`:
an integer-dtype series contains only integral values and no NaN, so over
exact rationals the disjunction collapses to "every coercible value is
integral". -/
def isIntish (l : List ℚ) : Bool := l.all (fun v => v.den == 1)

/-- `s_non.is_monotonic_increasing` (non-strict, over the row order). -/
def isMonoInc : List ℚ → Bool
  | [] => true
  | [_] => true
  | a :: b :: r => decide (a ≤ b) && isMonoInc (b :: r)

/-- `s_non.is_monotonic_decreasing`. -/
def isMonoDec : List ℚ → Bool
  | [] => true
  | [_] => true
  | a :: b :: r => decide (b ≤ a) && isMonoDec (b :: r)

/-- `unique_ratio = s_non.nunique() / max(len(s_non), 1)`
(`mkRat a b = a / b`; see `uratioOf_eq_div`). -/
def uratioOf (l : List ℚ) : ℚ := mkRat (nuniqueQ l) (max l.length 1)

theorem uratioOf_eq_div (l : List ℚ) :
    uratioOf l = (nuniqueQ l : ℚ) / (max l.length 1 : ℚ) := by
  simp [uratioOf, Rat.mkRat_eq_div]

theorem mkRat_half_eq_div : mkRat 1 2 = (1 : ℚ) / 2 ∧ mkRat 4 5 = (4 : ℚ) / 5 := by
  norm_num [Rat.mkRat_eq_div]

/-- `is_monotonic_index = is_intish and (inc or dec)` (line 73). -/
def isMonotonicIndex (l : List ℚ) : Bool :=
  isIntish l && (isMonoInc l || isMonoDec l)

/-- The `likely-ID/index` condition of lines 76-77:
`(looks_like_id and (unique_ratio > 0.5 or is_intish)) or
 (is_intish and (unique_ratio > 0.8 or is_monotonic_index))`. -/
def idSkipCond (name : String) (l : List ℚ) : Bool :=
  (looksLikeId name && (decide (mkRat 1 2 < uratioOf l) || isIntish l))
    || (isIntish l && (decide (mkRat 4 5 < uratioOf l) || isMonotonicIndex l))

/-- The verdict for one numeric column (the loop body of lines 59-81):
`some reason` when the column is put into `skipped`, `none` when it is
appended to `candidates`. -/
def classifyNum (name : String) (vals : List (Option ℚ)) : Option String :=
  let v := coercibleVals vals
  if v.isEmpty then some "all-NaN"
  else if nuniqueQ v ≤ 1 then some "constant"
  else if idSkipCond name v then some "likely-ID/index"
  else none

/-- The `skipped` dict of `numeric_cols` (an insertion-ordered map; column
names are unique by the table invariant, so an association list in column
order is the same map). -/
def numSkips (t : Table) : List (String × String) :=
  (t.cols.filter Col.isNumCol).filterMap
    (fun c => (classifyNum c.name c.numVals).map (fun r => (c.name, r)))

/-- The `candidates` list of `numeric_cols` before the sort. -/
def numCandidates (t : Table) : List String :=
  (t.cols.filter Col.isNumCol).filterMap
    (fun c => if classifyNum c.name c.numVals = none then some c.name else none)

/-- `numeric_cols(df, limit)` (lines 51-88): the kept column names
(sorted ascending by missing rate with Python's stable sort, then
truncated when `limit` is a positive int) and the skip map. -/
def numericColsFull (t : Table) (limit : Option Int) : List String × List (String × String) :=
  let sorted := sortByKey decLe (colMissFrac t) (numCandidates t)
  (match limit with
   | some k => if 0 < k then sorted.take k.toNat else sorted
   | none => sorted,
   numSkips t)

/-! ### String and path helpers

Python `pathlib` and `str` operations, re-implemented over `List Char` so
that the kernel can evaluate them. -/

/-- `Path(p).name`: everything after the last `/`. -/
def baseName (p : String) : String :=
  String.mk (p.data.foldl (fun acc c => if c = '/' then [] else acc ++ [c]) [])

/-- `Path(p).suffix`: `name[i:]` for the last `.` at position `i` with
`0 < i < len(name) - 1`, else the empty string. -/
def pathSuffix (p : String) : String :=
  let cs := (baseName p).data
  match cs.reverse.findIdx? (fun c => c == '.') with
  | none => ""
  | some r =>
      let i := cs.length - 1 - r
      if 0 < i ∧ i < cs.length - 1 then String.mk (cs.drop i) else ""

/-- `Path(p).stem`: the name with its suffix removed. -/
def stemOf (p : String) : String :=
  let b := (baseName p).data
  let s := (pathSuffix p).data
  String.mk (b.take (b.length - s.length))

/-- `str.lower()` (ASCII case folding, which covers every name the
pattern and the suffix dispatch compare against). -/
def lowerStr (s : String) : String := String.mk (s.data.map Char.toLower)

/-- `str.strip()`. -/
def trimStr (s : String) : String :=
  String.mk (((s.data.dropWhile Char.isWhitespace).reverse.dropWhile Char.isWhitespace).reverse)

/-- `str.endswith(suf)`. -/
def strEndsWith (s suf : String) : Bool := List.isSuffixOf suf.data s.data

/-- `sep.join(parts)`. -/
def joinSep (sep : String) : List String → String
  | [] => ""
  | [x] => x
  | x :: y :: r => x ++ sep ++ joinSep sep (y :: r)

/-! ### `json.dumps` (default separators, `ensure_ascii=False`) -/

inductive Json : Type
  | str (s : String)
  | arr (elems : List Json)
  | obj (fields : List (String × Json))

/-- The escapes `json.dumps` applies inside a string literal.  (Control
characters other than `\n`, `\t`, `\r` would be `\uXXXX`-escaped; none can
occur in the strings this pipeline serializes.) -/
def jsonEscapeChar (c : Char) : String :=
  if c = '"' then "\\\""
  else if c = '\\' then "\\\\"
  else if c = '\n' then "\\n"
  else if c = '\t' then "\\t"
  else if c = '\r' then "\\r"
  else String.singleton c

def jsonEscape (s : String) : String := String.join (s.data.map jsonEscapeChar)

mutual

def Json.dumps : Json → String
  | .str s => "\"" ++ jsonEscape s ++ "\""
  | .arr xs => "[" ++ Json.dumpsArr xs ++ "]"
  | .obj fs => "\x7b" ++ Json.dumpsObj fs ++ "\x7d"

def Json.dumpsArr : List Json → String
  | [] => ""
  | [x] => Json.dumps x
  | x :: y :: r => Json.dumps x ++ ", " ++ Json.dumpsArr (y :: r)

def Json.dumpsObj : List (String × Json) → String
  | [] => ""
  | [(k, v)] => "\"" ++ jsonEscape k ++ "\": " ++ Json.dumps v
  | (k, v) :: g :: r => "\"" ++ jsonEscape k ++ "\": " ++ Json.dumps v ++ ", " ++ Json.dumpsObj (g :: r)

end

/-! ### The effect trace of one script run

Destinations distinguish the designated output directory
(`OUT_DIR = ROOT_DIR / "reports"`) from paths resolved against the process
working directory (`Path("report_summary.json")`). -/

inductive Dest : Type
  | outDir (name : String)
  | cwd (name : String)
deriving DecidableEq

inductive Event : Type
  | mkdirOut
  | write (d : Dest) (content : String)
deriving DecidableEq

instance {ε α : Type} [DecidableEq ε] [DecidableEq α] : DecidableEq (Except ε α) := fun a b =>
  match a, b with
  | .error e, .error e' =>
      if h : e = e' then .isTrue (h ▸ rfl) else .isFalse (fun w => h (by injection w))
  | .ok x, .ok y =>
      if h : x = y then .isTrue (h ▸ rfl) else .isFalse (fun w => h (by injection w))
  | .error _, .ok _ => .isFalse (fun w => Except.noConfusion w)
  | .ok _, .error _ => .isFalse (fun w => Except.noConfusion w)

/-- One file under `data/`: its path relative to `DATA_DIR` and the outcome
of handing it to the external parsing collaborator (`pd.read_csv` /
`read_excel` / `read_json`), which the loader only dispatches to. -/
structure DataFile : Type where
  relPath : String
  parsed : Except String Table
deriving DecidableEq

/-- The external collaborators of the spec (§6): pandas `describe().T.to_csv`,
matplotlib histogram rendering (which may fail per column), and the
`SHOW_SUMMARY` preview round-trip (`pd.read_csv(...).to_html`, which may
fail with an exception whose type name and text are interpolated). -/
structure Collab : Type where
  describeCsv : Table → String
  plotPng : Table → String → Except String String
  previewHtml : String → Except (String × String) String

def recognizedSuffixes : List String := [".csv", ".xls", ".xlsx", ".json"]

/-- `load_table` (lines 41-49): dispatch on the lower-cased extension to an
external reader, or `ValueError(f"Unsupported file: {fp.name}")`. -/
def loadTable (f : DataFile) : Except String Table :=
  if recognizedSuffixes.contains (lowerStr (pathSuffix f.relPath)) then f.parsed
  else .error ("Unsupported file: " ++ baseName f.relPath)

/-- The plot artifact name of line 119: `f"{name}_{col}_hist.png"`, built
from the file stem and the raw column name. -/
def plotPngName (stem col : String) : String := stem ++ "_" ++ col ++ "_hist.png"

/-- What the claim's sanitization would be (modelled from the spec's words,
for comparison only): every character that is not alphanumeric and not `_`
replaced by `_`.  The source has no such step. -/
def specSanitize (s : String) : String :=
  String.mk (s.data.map (fun c => if c.isAlphanum || c = '_' then c else '_'))

/-- The markdown fragment lines of `analyze_one` (lines 129-141). -/
def fragmentLines (fname : String) (df : Table) (cols : List String)
    (summaryName : String) (pngs : List String) : List String :=
  ["### " ++ fname,
   "- rows: **" ++ toString df.nrows ++ "**, cols: **" ++ toString df.ncols ++ "**",
   "- numeric columns: `" ++ (if cols.isEmpty then "‚Äî" else joinSep ", " cols) ++ "`",
   "- summary: [" ++ summaryName ++ "](./" ++ summaryName ++ ")",
   "",
   "#### Distributions"]
  ++ pngs.map (fun nm => if strEndsWith nm ".png" then "![](./" ++ nm ++ ")" else "- " ++ nm)

/-- The optional `SHOW_SUMMARY` preview block (lines 143-158). -/
def previewLines (c : Collab) (summaryContent : String) : List String :=
  match c.previewHtml summaryContent with
  | .ok html =>
      ["", "<details>",
       "<summary><b>Preview summary table</b> (top 15 rows) ‚Äî click to expand</summary>",
       "", html, "", "</details>", ""]
  | .error en => ["_Summary preview unavailable: " ++ en.1 ++ ": " ++ en.2 ++ "_"]

/-- The per-file result dict of `analyze_one` (lines 160-165).  Paths are
rendered relative to the repository root (`DATA_DIR` = `data`,
`OUT_DIR` = `reports`). -/
structure AnalyzeRes : Type where
  dataFile : String
  summaryCsv : String
  plots : List String
  reportMd : String
deriving DecidableEq

def AnalyzeRes.toJson (r : AnalyzeRes) : Json :=
  .obj [("data_file", .str r.dataFile), ("summary_csv", .str r.summaryCsv),
        ("plots", .arr (r.plots.map .str)), ("report_md", .str r.reportMd)]

/-- The loop body of lines 118-124: plot one kept column, catching the
failure as the placeholder entry; returns the `pngs` entry and the write
events it causes. -/
def plotStep (c : Collab) (df : Table) (name col : String) : String × List Event :=
  match c.plotPng df col with
  | .ok png => (plotPngName name col, [Event.write (.outDir (plotPngName name col)) png])
  | .error e => ("(failed: " ++ col ++ " -> " ++ e ++ ")", [])

/-- The writes of `analyze_one` on a loaded table: the describe CSV
(line 106), then one png per successfully plotted kept column. -/
def analyzeEvents (c : Collab) (nLimit : Option Int) (df : Table) (name : String) : List Event :=
  Event.write (.outDir (name ++ "_summary.csv")) (c.describeCsv df)
    :: ((((numericColsFull df nLimit).1).map (plotStep c df name)).map Prod.snd).flatten

/-- The result dict of `analyze_one` (lines 160-165) on a loaded table. -/
def analyzeResOf (c : Collab) (showSummary : Bool) (nLimit : Option Int)
    (relPath : String) (df : Table) : AnalyzeRes :=
  let name := stemOf relPath
  let summaryName := name ++ "_summary.csv"
  let cols := (numericColsFull df nLimit).1
  let pngs := (cols.map (plotStep c df name)).map Prod.fst
  let lns := fragmentLines (baseName relPath) df cols summaryName pngs
  let lns2 := if showSummary then lns ++ previewLines c (c.describeCsv df) else lns
  { dataFile := "data/" ++ relPath,
    summaryCsv := "reports/" ++ summaryName,
    plots := pngs,
    reportMd := joinSep "\n" lns2 }

/-- `analyze_one` (lines 100-165): load, write the describe CSV, classify,
plot each kept column (catching per-column failures), and build the
fragment.  Returns the result dict and the write events, or the load
error. -/
def analyzeOne (c : Collab) (showSummary : Bool) (nLimit : Option Int) (f : DataFile) :
    Except String (AnalyzeRes × List Event) :=
  match loadTable f with
  | .error e => .error e
  | .ok df =>
      .ok (analyzeResOf c showSummary nLimit f.relPath df,
           analyzeEvents c nLimit df (stemOf f.relPath))

/-! ### The orchestrator (`main`, lines 213-308) -/

/-- `_qd_anchor_from_heading`: `re.sub(r'[^a-z0-9]+', '', text.lower())`. -/
def qdAnchor (s : String) : String :=
  String.mk ((lowerStr s).data.filter
    (fun c => (decide ('a' ≤ c) && decide (c ≤ 'z')) || (decide ('0' ≤ c) && decide (c ≤ '9'))))

def dashHeader : String :=
  "\n.docname \x7bNoema-Bot Dashboard\x7d\n.doctype \x7bplain\x7d\n.theme \x7bdarko\x7d\n\n# üß≠ Report Index\n\nThis dashboard lists all analyzed datasets. Click *Open full report* to jump into the full analysis.\n\n"

/-- `build_dashboard` (lines 172-211).  The `dedent` of the source is a
no-op: every line of the literal and of the fragments starts at column 0. -/
def buildDashboard (outputs : List AnalyzeRes) : String :=
  let cards := outputs.map (fun item =>
    let dataName := baseName item.dataFile
    let link := "[Open full report ‚Üí](./report.html#" ++ qdAnchor dataName ++ ")"
    let thumb :=
      (((item.plots.filter (fun p => strEndsWith (lowerStr p) ".png")).head?).map baseName).getD ""
    let md := ["### " ++ dataName,
               if item.summaryCsv ≠ "" then "Summary: " ++ baseName item.summaryCsv
               else "_No summary table._",
               link] ++ (if thumb ≠ "" then ["![](./" ++ thumb ++ ")"] else [])
    joinSep "\n\n" md)
  dashHeader ++ (if cards.isEmpty then "_No datasets found._" else joinSep "\n" cards)

def reportHeader : String := "## üß™ Auto Analysis Report"

def emptyNote : String := "No data files in data/. Nothing to analyze."

def qdMin : String :=
  ".docname \x7bNoema Report\x7d\n.doctype \x7bplain\x7d\n.theme \x7bdarko\x7d\n\n# No Data Found\n_No data files in data/. Nothing to analyze._\n"

def qdHeader : String :=
  ".docname \x7bNoema Report\x7d\n.doctype \x7bplain\x7d\n.theme \x7bdarko\x7d\n\n# Auto Analysis Summary (generated by Noema-Bot)\n.tableofcontents\n\n"

def emptyJson : String := Json.dumps (.obj [("markdown", .str emptyNote)])

/-- `--n`: `n_limit = None if args.n == 0 else args.n` (lines 216-218). -/
def nLimitOf (argN : Int) : Option Int := if argN = 0 then none else some argN

/-- Line 231: every file under `data/` whose lower-cased suffix is
recognized, in directory-walk order. -/
def globTargets (fs : List DataFile) : List DataFile :=
  fs.filter (fun f => recognizedSuffixes.contains (lowerStr (pathSuffix f.relPath)))

/-- Lines 221-231: the `FILE` single-file override (by existence under
`data/`, with a warning and fallback to the glob when missing). -/
def discoverTargets (fileVar : String) (fs : List DataFile) : List DataFile :=
  let only := trimStr fileVar
  let t0 : List DataFile :=
    if only ≠ "" then
      match fs.find? (fun f => f.relPath == only) with
      | some f => [f]
      | none => []
    else []
  if t0.isEmpty then globTargets fs else t0

/-- Python `<` on strings: lexicographic comparison of code points. -/
def pyStrLtCs : List Char → List Char → Bool
  | [], [] => false
  | [], _ :: _ => true
  | _ :: _, [] => false
  | a :: as, b :: bs => if a < b then true else if b < a then false else pyStrLtCs as bs

def pyStrLe (a b : String) : Bool := !(pyStrLtCs b.data a.data)

/-- Line 255: `sorted(targets, key=lambda x: str(x))`, the full path string
being `data/<relPath>`. -/
def sortTargets (ts : List DataFile) : List DataFile :=
  sortByKey pyStrLe (fun f => "data/" ++ f.relPath) ts

/-- The block `main` appends for one target (lines 260-272): the fragment
on success, `f"- **{fp.name}** ‚ùå {e}"` on failure. -/
def blockFor (c : Collab) (showSummary : Bool) (nLimit : Option Int) (f : DataFile) : String :=
  match analyzeOne c showSummary nLimit f with
  | .error e => "- **" ++ baseName f.relPath ++ "** ‚ùå " ++ e
  | .ok r => r.1.reportMd

def eventsFor (c : Collab) (showSummary : Bool) (nLimit : Option Int) (f : DataFile) : List Event :=
  match analyzeOne c showSummary nLimit f with
  | .error _ => []
  | .ok r => r.2

def okOutput (c : Collab) (showSummary : Bool) (nLimit : Option Int) (f : DataFile) : Option AnalyzeRes :=
  match analyzeOne c showSummary nLimit f with
  | .error _ => none
  | .ok r => some r.1

structure PipelineResult : Type where
  exitCode : ℕ
  emptyState : Bool
  blocks : List String
  outputs : List AnalyzeRes
  events : List Event
deriving DecidableEq

/-- `blocks` of the normal run (lines 258-272): the report header followed
by one fragment or failure notice per sorted target. -/
def runBlocksOf (c : Collab) (showSummary : Bool) (nLimit : Option Int)
    (ts : List DataFile) : List String :=
  reportHeader :: ts.map (blockFor c showSummary nLimit)

/-- `outputs` of the normal run: the result dicts of the successfully
analyzed targets, in order. -/
def runOutputsOf (c : Collab) (showSummary : Bool) (nLimit : Option Int)
    (ts : List DataFile) : List AnalyzeRes :=
  ts.filterMap (okOutput c showSummary nLimit)

/-- `report_md = "\n\n".join(blocks)` (line 274). -/
def runReportOf (c : Collab) (showSummary : Bool) (nLimit : Option Int)
    (ts : List DataFile) : String :=
  joinSep "\n\n" (runBlocksOf c showSummary nLimit ts)

/-- The `report_summary.json` payload of line 278:
`{"markdown": report_md, "items": outputs}`. -/
def runJsonOf (c : Collab) (showSummary : Bool) (nLimit : Option Int)
    (ts : List DataFile) : String :=
  Json.dumps (.obj [("markdown", .str (runReportOf c showSummary nLimit ts)),
                    ("items", .arr ((runOutputsOf c showSummary nLimit ts).map AnalyzeRes.toJson))])

/-- The write trace of the normal run: the per-target writes of the
analysis loop, then lines 275-299 (mkdir, `REPORT.md`,
`report_summary.json` in the working directory, `noema-report.qd`,
`dashboard.qd`). -/
def runEventsOf (c : Collab) (showSummary : Bool) (nLimit : Option Int)
    (ts : List DataFile) : List Event :=
  Event.mkdirOut :: (ts.map (eventsFor c showSummary nLimit)).flatten
    ++ [Event.mkdirOut,
        Event.write (.outDir "REPORT.md") (runReportOf c showSummary nLimit ts),
        Event.write (.cwd "report_summary.json") (runJsonOf c showSummary nLimit ts),
        Event.write (.outDir "noema-report.qd")
          (qdHeader ++ runReportOf c showSummary nLimit ts ++ "\n"),
        Event.write (.outDir "dashboard.qd")
          (buildDashboard (runOutputsOf c showSummary nLimit ts))]

/-- One run of the script.  The leading `Event.mkdirOut` is the
module-level `OUT_DIR.mkdir(parents=True, exist_ok=True)` of lines 13-16
(repeated at line 31; the duplicate is collapsed into one event).  The
optional `CLEAN` cleanup (lines 21-30) only deletes files and is not part
of the write trace.  `print` calls produce no artifacts and are not
modelled.  The script never raises past `main` and never calls
`sys.exit`, so the process exit code is always 0. -/
def runPipeline (fileVar : String) (argN : Int) (showSummary : Bool)
    (fs : List DataFile) (c : Collab) : PipelineResult :=
  let nLimit := nLimitOf argN
  let targets := discoverTargets fileVar fs
  if targets.isEmpty then
    { exitCode := 0, emptyState := true, blocks := [], outputs := [],
      events := [Event.mkdirOut, Event.mkdirOut,
                 Event.write (.outDir "REPORT.md") emptyNote,
                 Event.write (.outDir "noema-report.qd") qdMin,
                 Event.write (.outDir "dashboard.qd") qdMin,
                 Event.write (.cwd "report_summary.json") emptyJson] }
  else
    { exitCode := 0, emptyState := false,
      blocks := runBlocksOf c showSummary nLimit (sortTargets targets),
      outputs := runOutputsOf c showSummary nLimit (sortTargets targets),
      events := runEventsOf c showSummary nLimit (sortTargets targets) }

/-! ### Concrete data used by the witnesses -/

def someRat (n : Int) (d : ℕ) : Option ℚ := some (mkRat n d)

def wCollab : Collab :=
  { describeCsv := fun _ => "STATS",
    plotPng := fun _ _ => .ok "PNG",
    previewHtml := fun _ => .ok "HTML" }

/-- A table with an id-named integer column and a float measurement. -/
def wTableId : Table :=
  { cols := [⟨"subject_id", .num [someRat 1 1, someRat 2 1, someRat 3 1, someRat 4 1]⟩,
             ⟨"score", .num [someRat 3 2, someRat 5 2, none, someRat 1 2]⟩] }

/-- Three kept float columns: `b` complete, `a` and `c` tied at 1/3 missing. -/
def wTableTie : Table :=
  { cols := [⟨"a", .num [someRat 3 2, none, someRat 5 2]⟩,
             ⟨"b", .num [someRat 3 2, someRat 5 2, someRat 7 2]⟩,
             ⟨"g", .text [some "x", some "y", some "x"]⟩,
             ⟨"c", .num [someRat 5 2, none, someRat 3 2]⟩] }

/-- An all-missing column next to a constant column whose name matches the
identifier pattern. -/
def wTableC4 : Table :=
  { cols := [⟨"empty", .num [none, none, none]⟩,
             ⟨"flag_id", .num [someRat 1 1, someRat 1 1, someRat 1 1]⟩] }

def wFileOk : DataFile := ⟨"a.csv", .ok wTableTie⟩

def wFileBad : DataFile := ⟨"b.csv", .error "boom"⟩

def wFs : List DataFile := [wFileBad, wFileOk]

/-! ### Helper lemmas about the classifier -/

theorem mem_numSkips_iff (t : Table) (hnodup : (t.cols.map Col.name).Nodup)
    (c : Col) (hc : c ∈ t.cols) (hnum : c.isNumCol = true) (r : String) :
    (c.name, r) ∈ numSkips t ↔ classifyNum c.name c.numVals = some r := by
  unfold numSkips
  rw [List.mem_filterMap]
  constructor
  · rintro ⟨a, ha, hfa⟩
    have ha' : a ∈ t.cols := (List.mem_filter.1 ha).1
    rw [Option.map_eq_some'] at hfa
    rcases hfa with ⟨r', hr', heq⟩
    rw [Prod.mk.injEq] at heq
    obtain ⟨h1, h2⟩ := heq
    have hac : a = c := List.inj_on_of_nodup_map hnodup ha' hc h1
    rw [← hac, ← h2]
    exact hr'
  · intro hcl
    exact ⟨c, List.mem_filter.2 ⟨hc, hnum⟩, by rw [hcl]; rfl⟩

theorem mem_numCandidates_iff (t : Table) (hnodup : (t.cols.map Col.name).Nodup)
    (c : Col) (hc : c ∈ t.cols) (hnum : c.isNumCol = true) :
    c.name ∈ numCandidates t ↔ classifyNum c.name c.numVals = none := by
  unfold numCandidates
  rw [List.mem_filterMap]
  constructor
  · rintro ⟨a, ha, hfa⟩
    have ha' : a ∈ t.cols := (List.mem_filter.1 ha).1
    by_cases h : classifyNum a.name a.numVals = none
    · rw [if_pos h, Option.some.injEq] at hfa
      have hac : a = c := List.inj_on_of_nodup_map hnodup ha' hc hfa
      rw [← hac]; exact h
    · rw [if_neg h] at hfa
      exact absurd hfa (Option.noConfusion)
  · intro hcl
    exact ⟨c, List.mem_filter.2 ⟨hc, hnum⟩, by rw [if_pos hcl]⟩

theorem kept_mem_candidates (t : Table) (limit : Option Int) (nm : String)
    (h : nm ∈ (numericColsFull t limit).1) : nm ∈ numCandidates t := by
  rcases limit with _ | k
  · exact (mem_sortByKey _ _ _ _).1 h
  · by_cases hk : 0 < k
    · have h' : nm ∈ (sortByKey decLe (colMissFrac t) (numCandidates t)).take k.toNat := by
        simpa [numericColsFull, hk] using h
      exact (mem_sortByKey _ _ _ _).1 ((List.take_sublist _ _).subset h')
    · exact (mem_sortByKey _ _ _ _).1 (by simpa [numericColsFull, hk] using h)

theorem numCandidates_sublist (t : Table) :
    (numCandidates t).Sublist (t.cols.map Col.name) := by
  have aux : ∀ l : List Col,
      (l.filterMap (fun c => if classifyNum c.name c.numVals = none then some c.name else none)).Sublist
        (l.map Col.name) := by
    intro l
    induction l with
    | nil => exact List.Sublist.refl _
    | cons c l ih =>
        rw [List.filterMap_cons, List.map_cons]
        by_cases h : classifyNum c.name c.numVals = none
        · rw [if_pos h]; exact ih.cons₂ _
        · rw [if_neg h]; exact ih.cons _
  exact (aux (t.cols.filter Col.isNumCol)).trans ((List.filter_sublist t.cols).map Col.name)

theorem idSkipCond_eq_true_iff (name : String) (l : List ℚ) :
    idSkipCond name l = true ↔
      ((looksLikeId name = true ∧ (mkRat 1 2 < uratioOf l ∨ isIntish l = true))
        ∨ (isIntish l = true ∧ (mkRat 4 5 < uratioOf l ∨ isMonotonicIndex l = true))) := by
  simp [idSkipCond, Bool.or_eq_true, Bool.and_eq_true, decide_eq_true_eq]

theorem classifyNum_of_multi (name : String) (vals : List (Option ℚ))
    (h1 : coercibleVals vals ≠ []) (h2 : 1 < nuniqueQ (coercibleVals vals)) :
    classifyNum name vals =
      (if idSkipCond name (coercibleVals vals) then some "likely-ID/index" else none) := by
  have hv : (coercibleVals vals).isEmpty = false := by
    simpa [List.isEmpty_iff] using h1
  have hn : ¬ nuniqueQ (coercibleVals vals) ≤ 1 := by omega
  simp [classifyNum, hv, hn]

/-! ### C1 -/

/-- C1.  For every numeric column with at least one coercible value and more
than one distinct value, the classifier emits `Skipped(likely-identifier)`
(reason string `"likely-ID/index"` in the source) exactly when
`(looks_like_id ∧ (unique_ratio > 0.5 ∨ is_intish)) ∨
 (is_intish ∧ (unique_ratio > 0.8 ∨ is_monotonic_index))`; in particular a
matching name together with unique ratio above 0.5 forces the skip. -/
theorem C1_likely_identifier_iff (t : Table) (limit : Option Int) (c : Col)
    (hnodup : (t.cols.map Col.name).Nodup) (hc : c ∈ t.cols) (hnum : c.isNumCol = true)
    (h1 : coercibleVals c.numVals ≠ []) (h2 : 1 < nuniqueQ (coercibleVals c.numVals)) :
    ((c.name, "likely-ID/index") ∈ (numericColsFull t limit).2 ↔
      ((looksLikeId c.name = true ∧
          (mkRat 1 2 < uratioOf (coercibleVals c.numVals) ∨ isIntish (coercibleVals c.numVals) = true))
        ∨ (isIntish (coercibleVals c.numVals) = true ∧
            (mkRat 4 5 < uratioOf (coercibleVals c.numVals) ∨
              isMonotonicIndex (coercibleVals c.numVals) = true))))
    ∧ (looksLikeId c.name = true → mkRat 1 2 < uratioOf (coercibleVals c.numVals) →
        (c.name, "likely-ID/index") ∈ (numericColsFull t limit).2) := by
  have hiff : (c.name, "likely-ID/index") ∈ (numericColsFull t limit).2 ↔
      idSkipCond c.name (coercibleVals c.numVals) = true := by
    rw [show (numericColsFull t limit).2 = numSkips t from rfl,
        mem_numSkips_iff t hnodup c hc hnum, classifyNum_of_multi c.name c.numVals h1 h2]
    by_cases hid : idSkipCond c.name (coercibleVals c.numVals) = true
    · simp [hid]
    · simp [hid]
  constructor
  · rw [hiff, idSkipCond_eq_true_iff]
  · intro hlook hrat
    rw [hiff, idSkipCond_eq_true_iff]
    exact Or.inl ⟨hlook, Or.inl hrat⟩

/-- Witness for C1 at the table `wTableId`: the column `subject_id` holds
the integers 1..4, so it is emitted as `likely-ID/index`. -/
theorem C1_witness :
    ((wTableId.cols.map Col.name).Nodup
      ∧ ⟨"subject_id", .num [someRat 1 1, someRat 2 1, someRat 3 1, someRat 4 1]⟩ ∈ wTableId.cols
      ∧ Col.isNumCol ⟨"subject_id", .num [someRat 1 1, someRat 2 1, someRat 3 1, someRat 4 1]⟩ = true
      ∧ coercibleVals (Col.numVals ⟨"subject_id", .num [someRat 1 1, someRat 2 1, someRat 3 1, someRat 4 1]⟩) ≠ []
      ∧ 1 < nuniqueQ (coercibleVals (Col.numVals ⟨"subject_id", .num [someRat 1 1, someRat 2 1, someRat 3 1, someRat 4 1]⟩)))
    ∧ ("subject_id", "likely-ID/index") ∈ (numericColsFull wTableId none).2 := by
  refine ⟨⟨by decide, by decide, by decide, by decide, by decide⟩, ?_⟩
  have h := (C1_likely_identifier_iff wTableId none
    ⟨"subject_id", .num [someRat 1 1, someRat 2 1, someRat 3 1, someRat 4 1]⟩
    (by decide) (by decide) (by decide) (by decide) (by decide)).1
  exact h.2 (by decide)

/-! ### C2 -/

/-- C2.  With no limit, the kept-column list is sorted ascending by each
column's missing-value fraction in the original column, and ties keep the
columns' relative order in the table (stability, expressed through the
strictly increasing `indexOf` into the table's column-name list). -/
theorem C2_kept_sorted_stable_by_missing (t : Table)
    (hnodup : (t.cols.map Col.name).Nodup) :
    ((numericColsFull t none).1).Pairwise (fun a b =>
      colMissFrac t a < colMissFrac t b ∨
      (colMissFrac t a = colMissFrac t b ∧
        (t.cols.map Col.name).indexOf a < (t.cols.map Col.name).indexOf b)) := by
  have hl : (numCandidates t).Pairwise
      (fun a b => (t.cols.map Col.name).indexOf a < (t.cols.map Col.name).indexOf b) :=
    sublist_pairwise_indexOf (numCandidates_sublist t) hnodup
  have h := sortByKey_pairwise (colMissFrac t)
    (fun nm => (t.cols.map Col.name).indexOf nm) (numCandidates t) hl
  simpa [lexKey] using h

/-- Witness for C2 at `wTableTie`: the kept list is `["b", "a", "c"]`,
`b` having no missing values and the tie between `a` and `c` keeping
table order. -/
theorem C2_witness :
    (wTableTie.cols.map Col.name).Nodup
    ∧ ((numericColsFull wTableTie none).1).Pairwise (fun a b =>
        colMissFrac wTableTie a < colMissFrac wTableTie b ∨
        (colMissFrac wTableTie a = colMissFrac wTableTie b ∧
          (wTableTie.cols.map Col.name).indexOf a < (wTableTie.cols.map Col.name).indexOf b)) :=
  ⟨by decide, C2_kept_sorted_stable_by_missing wTableTie (by decide)⟩

/-! ### C3 -/

/-- C3.  For a positive limit `k` the kept list is the first `k` entries of
the unlimited sorted kept list (hence exactly `min k m` columns when `m`
would be kept), the skip map is unchanged, and limit 0 behaves exactly
like no limit. -/
theorem C3_limit_truncates_kept (t : Table) (k : Int) (hk : 0 < k) :
    (numericColsFull t (some k)).1 = ((numericColsFull t none).1).take k.toNat
    ∧ ((numericColsFull t (some k)).1).length =
        min k.toNat ((numericColsFull t none).1).length
    ∧ (numericColsFull t (some k)).2 = (numericColsFull t none).2
    ∧ numericColsFull t (some 0) = numericColsFull t none := by
  refine ⟨by simp [numericColsFull, hk], ?_, rfl, by simp [numericColsFull]⟩
  simp [numericColsFull, hk, List.length_take]

/-- Witness for C3 at `wTableTie` with `k = 2`: two of the three kept
columns survive the cap and the skip map is unchanged. -/
theorem C3_witness :
    (0 : Int) < 2
    ∧ ((numericColsFull wTableTie (some 2)).1 = ((numericColsFull wTableTie none).1).take (2 : Int).toNat
      ∧ ((numericColsFull wTableTie (some 2)).1).length =
          min (2 : Int).toNat ((numericColsFull wTableTie none).1).length
      ∧ (numericColsFull wTableTie (some 2)).2 = (numericColsFull wTableTie none).2
      ∧ numericColsFull wTableTie (some 0) = numericColsFull wTableTie none)
    ∧ (numericColsFull wTableTie (some 2)).1 = ["b", "a"] :=
  ⟨by decide, C3_limit_truncates_kept wTableTie 2 (by decide), by decide⟩

/-! ### C4 -/

/-- C4.  A numeric column with zero coercible values is emitted as
`Skipped(all-missing)` (source string `"all-NaN"`), and one with exactly
one distinct non-missing value as `Skipped(constant)`, whatever its name;
in each case that is the column's only verdict (the identifier heuristic
is never consulted) and the column is not kept. -/
theorem C4_all_missing_constant_precede (t : Table) (limit : Option Int) (c : Col)
    (hnodup : (t.cols.map Col.name).Nodup) (hc : c ∈ t.cols) (hnum : c.isNumCol = true) :
    (coercibleVals c.numVals = [] →
      (∀ r, (c.name, r) ∈ (numericColsFull t limit).2 ↔ r = "all-NaN")
      ∧ c.name ∉ (numericColsFull t limit).1)
    ∧ (nuniqueQ (coercibleVals c.numVals) = 1 →
      (∀ r, (c.name, r) ∈ (numericColsFull t limit).2 ↔ r = "constant")
      ∧ c.name ∉ (numericColsFull t limit).1) := by
  have hskip : ∀ s : String, classifyNum c.name c.numVals = some s →
      (∀ r, (c.name, r) ∈ (numericColsFull t limit).2 ↔ r = s)
      ∧ c.name ∉ (numericColsFull t limit).1 := by
    intro s hcl
    constructor
    · intro r
      rw [show (numericColsFull t limit).2 = numSkips t from rfl,
          mem_numSkips_iff t hnodup c hc hnum, hcl]
      simp [eq_comm]
    · intro hmem
      have := (mem_numCandidates_iff t hnodup c hc hnum).1 (kept_mem_candidates t limit _ hmem)
      rw [hcl] at this
      exact Option.noConfusion this
  constructor
  · intro hempty
    refine hskip "all-NaN" ?_
    simp [classifyNum, hempty]
  · intro huniq
    have hne : (coercibleVals c.numVals).isEmpty = false := by
      rcases h : coercibleVals c.numVals with _ | ⟨a, l⟩
      · rw [h] at huniq; simp [nuniqueQ] at huniq
      · rfl
    refine hskip "constant" ?_
    simp [classifyNum, hne, huniq]

/-- Witness for C4: in the table below, `empty` (all NaN) is skipped as
`all-NaN` and `flag` (constantly 1, despite its id-like neighbour names)
as `constant`. -/
theorem C4_witness :
    ((wTableC4.cols.map Col.name).Nodup
      ∧ ⟨"empty", .num [none, none, none]⟩ ∈ wTableC4.cols
      ∧ Col.isNumCol ⟨"empty", .num [none, none, none]⟩ = true
      ∧ coercibleVals (Col.numVals ⟨"empty", .num [none, none, none]⟩) = [])
    ∧ (∀ r, ("empty", r) ∈ (numericColsFull wTableC4 none).2 ↔ r = "all-NaN")
    ∧ "empty" ∉ (numericColsFull wTableC4 none).1
    ∧ (∀ r, ("flag_id", r) ∈ (numericColsFull wTableC4 none).2 ↔ r = "constant")
    ∧ "flag_id" ∉ (numericColsFull wTableC4 none).1 := by
  have h1 := (C4_all_missing_constant_precede wTableC4 none ⟨"empty", .num [none, none, none]⟩
    (by decide) (by decide) (by decide)).1 (by decide)
  have h2 := (C4_all_missing_constant_precede wTableC4 none
    ⟨"flag_id", .num [someRat 1 1, someRat 1 1, someRat 1 1]⟩
    (by decide) (by decide) (by decide)).2 (by decide)
  exact ⟨⟨by decide, by decide, by decide, by decide⟩, h1.1, h1.2, h2.1, h2.2⟩

/-! ### C5 -/

/-- C5.  `numeric_cols` reads nothing but its arguments and the constant
compiled pattern, so it is a pure function of the table: two runs on the
same table with no limit return the same kept list and the same skip map. -/
theorem C5_classifier_deterministic (t : Table) :
    (numericColsFull t none).1 = (numericColsFull t none).1
    ∧ (numericColsFull t none).2 = (numericColsFull t none).2
    ∧ numericColsFull t none = numericColsFull t none :=
  ⟨rfl, rfl, rfl⟩

/-! ### C6 -/

/-- C6 counterexample: at `stem = "t"`, `col = "a/b"`, the artifact name
produced by line 119 keeps the raw column name, differs from the
sanitized composition the claim describes, and contains a path
separator. -/
theorem C6_counterexample :
    plotPngName "t" "a/b" ≠ "t" ++ "_" ++ specSanitize "a/b" ++ "_hist.png"
    ∧ '/' ∈ (plotPngName "t" "a/b").data := by
  decide

/-- C6 amended: the plot artifact name is composed from the file stem and
the raw column name with no sanitization, so a column name containing a
path separator yields an artifact name containing it. -/
theorem C6_raw_plot_name (stem col : String) (h : '/' ∈ col.data) :
    plotPngName stem col = stem ++ "_" ++ col ++ "_hist.png"
    ∧ '/' ∈ (plotPngName stem col).data := by
  refine ⟨rfl, ?_⟩
  simp [plotPngName, String.data_append, List.mem_append, h]

/-- Witness for the amended C6 at `stem = "t"`, `col = "a/b"`. -/
theorem C6_witness :
    '/' ∈ ("a/b" : String).data
    ∧ (plotPngName "t" "a/b" = "t" ++ "_" ++ "a/b" ++ "_hist.png"
      ∧ '/' ∈ (plotPngName "t" "a/b").data) :=
  ⟨by decide, C6_raw_plot_name "t" "a/b" (by decide)⟩

/-! ### Helper lemmas about the effect trace -/

theorem analyzeEvents_outDir (c : Collab) (nLimit : Option Int) (df : Table) (name : String) :
    ∀ e ∈ analyzeEvents c nLimit df name,
      ∃ n cont, e = Event.write (.outDir n) cont := by
  intro e he
  rcases List.mem_cons.1 he with rfl | he'
  · exact ⟨_, _, rfl⟩
  · rcases List.mem_flatten.1 he' with ⟨l, hl, hel⟩
    rcases List.mem_map.1 hl with ⟨pr, hpr, rfl⟩
    rcases List.mem_map.1 hpr with ⟨col, _, rfl⟩
    cases hp : c.plotPng df col with
    | ok png =>
        simp only [plotStep, hp] at hel
        rcases List.mem_singleton.1 hel with rfl
        exact ⟨_, _, rfl⟩
    | error er =>
        simp [plotStep, hp] at hel

theorem eventsFor_outDir (c : Collab) (showSummary : Bool) (nLimit : Option Int)
    (f : DataFile) :
    ∀ e ∈ eventsFor c showSummary nLimit f,
      ∃ n cont, e = Event.write (.outDir n) cont := by
  intro e he
  cases hok : analyzeOne c showSummary nLimit f with
  | error _ => simp [eventsFor, hok] at he
  | ok r =>
      simp only [eventsFor, hok] at he
      unfold analyzeOne at hok
      cases hl : loadTable f with
      | error e0 => rw [hl] at hok; exact absurd hok (by simp)
      | ok df =>
          rw [hl] at hok
          injection hok with h'
          refine analyzeEvents_outDir c nLimit df (stemOf f.relPath) e ?_
          rw [← h'] at he
          exact he

theorem cons_flatten_append_infix {γ : Type} (x : γ) (L : List (List γ)) (tail l : List γ)
    (hl : l ∈ L) :
    ∃ pre post : List γ, x :: L.flatten ++ tail = pre ++ l ++ post := by
  obtain ⟨s, t, hst⟩ := List.infix_of_mem_flatten hl
  refine ⟨x :: s, t ++ tail, ?_⟩
  rw [← hst]
  simp [List.append_assoc]

/-! ### C7 -/

/-- C7.  A discovered file whose load fails contributes the failure notice
`- **<name>** ‚ùå <error>` (containing the file reference and the error
text) to the combined report in place of a fragment; every other
discovered file still contributes its fragment and its writes; and the
run finishes with exit code 0. -/
theorem C7_load_failure_notice (fileVar : String) (argN : Int) (showSummary : Bool)
    (fs : List DataFile) (c : Collab) (f : DataFile) (e : String)
    (hf : f ∈ discoverTargets fileVar fs)
    (he : loadTable f = .error e) :
    (runPipeline fileVar argN showSummary fs c).exitCode = 0
    ∧ (runPipeline fileVar argN showSummary fs c).blocks =
        reportHeader :: (sortTargets (discoverTargets fileVar fs)).map
          (blockFor c showSummary (nLimitOf argN))
    ∧ blockFor c showSummary (nLimitOf argN) f =
        "- **" ++ baseName f.relPath ++ "** ‚ùå " ++ e
    ∧ (∃ pre post : String,
        blockFor c showSummary (nLimitOf argN) f = pre ++ baseName f.relPath ++ post)
    ∧ (∃ pre post : String,
        blockFor c showSummary (nLimitOf argN) f = pre ++ e ++ post)
    ∧ blockFor c showSummary (nLimitOf argN) f ∈ (runPipeline fileVar argN showSummary fs c).blocks
    ∧ (∀ g ∈ discoverTargets fileVar fs, ∀ res evs,
        analyzeOne c showSummary (nLimitOf argN) g = .ok (res, evs) →
          blockFor c showSummary (nLimitOf argN) g = res.reportMd
          ∧ ∃ pre post : List Event,
              (runPipeline fileVar argN showSummary fs c).events = pre ++ evs ++ post) := by
  have hne : (discoverTargets fileVar fs).isEmpty = false := by
    cases h' : discoverTargets fileVar fs with
    | nil => rw [h'] at hf; cases hf
    | cons a l => rfl
  have hao : analyzeOne c showSummary (nLimitOf argN) f = .error e := by
    simp [analyzeOne, he]
  have hbf : blockFor c showSummary (nLimitOf argN) f =
      "- **" ++ baseName f.relPath ++ "** ‚ùå " ++ e := by
    simp [blockFor, hao]
  have hblocks : (runPipeline fileVar argN showSummary fs c).blocks =
      reportHeader :: (sortTargets (discoverTargets fileVar fs)).map
        (blockFor c showSummary (nLimitOf argN)) := by
    simp [runPipeline, hne, runBlocksOf]
  have hevents : (runPipeline fileVar argN showSummary fs c).events =
      runEventsOf c showSummary (nLimitOf argN) (sortTargets (discoverTargets fileVar fs)) := by
    simp [runPipeline, hne]
  refine ⟨by simp [runPipeline, hne], hblocks, hbf, ?_, ?_, ?_, ?_⟩
  · exact ⟨"- **", "** ‚ùå " ++ e, by rw [hbf]; simp [String.append_assoc]⟩
  · exact ⟨"- **" ++ baseName f.relPath ++ "** ‚ùå ", "", by rw [hbf]; simp⟩
  · rw [hblocks]
    exact List.mem_cons_of_mem _ (List.mem_map_of_mem _ ((mem_sortByKey _ _ _ _).2 hf))
  · intro g hg res evs hok
    refine ⟨by simp [blockFor, hok], ?_⟩
    have hgev : eventsFor c showSummary (nLimitOf argN) g = evs := by
      simp [eventsFor, hok]
    have hmem : evs ∈ (sortTargets (discoverTargets fileVar fs)).map
        (eventsFor c showSummary (nLimitOf argN)) := by
      rw [← hgev]
      exact List.mem_map_of_mem _ ((mem_sortByKey _ _ _ _).2 hg)
    rw [hevents, runEventsOf]
    exact cons_flatten_append_infix _ _ _ evs hmem

/-- Witness for C7: `wFs` holds a parse-failing `b.csv` next to a healthy
`a.csv`. -/
theorem C7_witness :
    (wFileBad ∈ discoverTargets "" wFs ∧ loadTable wFileBad = .error "boom")
    ∧ ((runPipeline "" 0 false wFs wCollab).exitCode = 0
      ∧ (runPipeline "" 0 false wFs wCollab).blocks =
          reportHeader :: (sortTargets (discoverTargets "" wFs)).map
            (blockFor wCollab false (nLimitOf 0))
      ∧ blockFor wCollab false (nLimitOf 0) wFileBad =
          "- **" ++ baseName wFileBad.relPath ++ "** ‚ùå " ++ "boom"
      ∧ (∃ pre post : String,
          blockFor wCollab false (nLimitOf 0) wFileBad = pre ++ baseName wFileBad.relPath ++ post)
      ∧ (∃ pre post : String,
          blockFor wCollab false (nLimitOf 0) wFileBad = pre ++ "boom" ++ post)
      ∧ blockFor wCollab false (nLimitOf 0) wFileBad ∈ (runPipeline "" 0 false wFs wCollab).blocks
      ∧ (∀ g ∈ discoverTargets "" wFs, ∀ res evs,
          analyzeOne wCollab false (nLimitOf 0) g = .ok (res, evs) →
            blockFor wCollab false (nLimitOf 0) g = res.reportMd
            ∧ ∃ pre post : List Event,
                (runPipeline "" 0 false wFs wCollab).events = pre ++ evs ++ post)) :=
  ⟨⟨by decide, by decide⟩,
   C7_load_failure_notice "" 0 false wFs wCollab wFileBad "boom" (by decide) (by decide)⟩

/-! ### C8 -/

/-- C8.  With zero discovered targets the run still finishes with exit
code 0 and writes the combined narrative report, the document-template
artifact, the dashboard index and the structured summary, each stating
that nothing was found. -/
theorem C8_empty_input_artifacts (fileVar : String) (argN : Int) (showSummary : Bool)
    (fs : List DataFile) (c : Collab)
    (h : discoverTargets fileVar fs = []) :
    (runPipeline fileVar argN showSummary fs c).exitCode = 0
    ∧ (runPipeline fileVar argN showSummary fs c).emptyState = true
    ∧ (runPipeline fileVar argN showSummary fs c).events =
        [Event.mkdirOut, Event.mkdirOut,
         Event.write (.outDir "REPORT.md") emptyNote,
         Event.write (.outDir "noema-report.qd") qdMin,
         Event.write (.outDir "dashboard.qd") qdMin,
         Event.write (.cwd "report_summary.json") emptyJson]
    ∧ (∃ pre post : String, emptyNote = pre ++ "Nothing to analyze." ++ post)
    ∧ (∃ pre post : String, qdMin = pre ++ "# No Data Found" ++ post)
    ∧ (∃ pre post : String, emptyJson = pre ++ "No data files" ++ post) := by
  have h' : (discoverTargets fileVar fs).isEmpty = true := by rw [h]; rfl
  refine ⟨by simp [runPipeline, h'], by simp [runPipeline, h'], by simp [runPipeline, h'],
    ⟨"No data files in data/. ", "", by decide⟩,
    ⟨".docname \x7bNoema Report\x7d\n.doctype \x7bplain\x7d\n.theme \x7bdarko\x7d\n\n",
     "\n_No data files in data/. Nothing to analyze._\n", by decide⟩,
    ⟨"\x7b\"markdown\": \"", " in data/. Nothing to analyze.\"\x7d", by decide⟩⟩

/-- A directory holding only a file with an unrecognized extension, so the
glob discovers nothing. -/
def wFsTxt : List DataFile := [⟨"notes.txt", .ok wTableTie⟩]

/-- Witness for C8 at `wFsTxt`. -/
theorem C8_witness :
    discoverTargets "" wFsTxt = []
    ∧ ((runPipeline "" 0 false wFsTxt wCollab).exitCode = 0
      ∧ (runPipeline "" 0 false wFsTxt wCollab).emptyState = true
      ∧ (runPipeline "" 0 false wFsTxt wCollab).events =
          [Event.mkdirOut, Event.mkdirOut,
           Event.write (.outDir "REPORT.md") emptyNote,
           Event.write (.outDir "noema-report.qd") qdMin,
           Event.write (.outDir "dashboard.qd") qdMin,
           Event.write (.cwd "report_summary.json") emptyJson]
      ∧ (∃ pre post : String, emptyNote = pre ++ "Nothing to analyze." ++ post)
      ∧ (∃ pre post : String, qdMin = pre ++ "# No Data Found" ++ post)
      ∧ (∃ pre post : String, emptyJson = pre ++ "No data files" ++ post)) :=
  ⟨by decide, C8_empty_input_artifacts "" 0 false wFsTxt wCollab (by decide)⟩

/-! ### C9 -/

/-- C9 counterexample: already on an empty data directory the structured
summary is written to `Path("report_summary.json")`, a path resolved
against the process working directory, not into `OUT_DIR` — so not every
run output lands in the designated output directory. -/
theorem C9_counterexample :
    ((runPipeline "" 0 false [] wCollab).events.all
      (fun e => match e with
        | Event.mkdirOut => true
        | Event.write (Dest.outDir _) _ => true
        | Event.write (Dest.cwd _) _ => false)) = false := by
  decide

/-- C9 amended: every effect of a run is the creation of the output
directory, a write under the output directory, or the structured summary
written to the working directory as `report_summary.json`; and the run
begins by creating the output directory. -/
theorem C9_outputs_destinations (fileVar : String) (argN : Int) (showSummary : Bool)
    (fs : List DataFile) (c : Collab) :
    (∀ e ∈ (runPipeline fileVar argN showSummary fs c).events,
        e = Event.mkdirOut
        ∨ (∃ n cont, e = Event.write (.outDir n) cont)
        ∨ (∃ cont, e = Event.write (.cwd "report_summary.json") cont))
    ∧ (runPipeline fileVar argN showSummary fs c).events.head? = some Event.mkdirOut := by
  by_cases hemp : (discoverTargets fileVar fs).isEmpty = true
  · constructor
    · intro e he
      simp only [runPipeline, hemp, if_true] at he
      simp only [List.mem_cons, List.not_mem_nil, or_false] at he
      rcases he with rfl | rfl | rfl | rfl | rfl | rfl
      · exact Or.inl rfl
      · exact Or.inl rfl
      · exact Or.inr (Or.inl ⟨_, _, rfl⟩)
      · exact Or.inr (Or.inl ⟨_, _, rfl⟩)
      · exact Or.inr (Or.inl ⟨_, _, rfl⟩)
      · exact Or.inr (Or.inr ⟨_, rfl⟩)
    · simp [runPipeline, hemp]
  · have hev : (runPipeline fileVar argN showSummary fs c).events =
        runEventsOf c showSummary (nLimitOf argN) (sortTargets (discoverTargets fileVar fs)) := by
      simp [runPipeline, hemp]
    constructor
    · intro e he
      rw [hev] at he
      rcases List.mem_cons.1 he with rfl | he'
      · exact Or.inl rfl
      rcases List.mem_append.1 he' with hflat | htail
      · rcases List.mem_flatten.1 hflat with ⟨l, hl, hel⟩
        rcases List.mem_map.1 hl with ⟨g, _, rfl⟩
        exact Or.inr (Or.inl (eventsFor_outDir _ _ _ _ e hel))
      · simp only [List.mem_cons, List.not_mem_nil, or_false] at htail
        rcases htail with rfl | rfl | rfl | rfl | rfl
        · exact Or.inl rfl
        · exact Or.inr (Or.inl ⟨_, _, rfl⟩)
        · exact Or.inr (Or.inr ⟨_, rfl⟩)
        · exact Or.inr (Or.inl ⟨_, _, rfl⟩)
        · exact Or.inr (Or.inl ⟨_, _, rfl⟩)
    · rw [hev]; rfl

/-- Witness for the amended C9 at the empty data directory. -/
theorem C9_witness :
    Event.mkdirOut ∈ (runPipeline "" 0 false [] wCollab).events
    ∧ (Event.mkdirOut = Event.mkdirOut
      ∨ (∃ n cont, Event.mkdirOut = Event.write (.outDir n) cont)
      ∨ (∃ cont, Event.mkdirOut = Event.write (.cwd "report_summary.json") cont)) :=
  ⟨by decide, (C9_outputs_destinations "" 0 false [] wCollab).1 Event.mkdirOut (by decide)⟩

/-! ### C10 -/

/-- C10.  When the `FILE` override names a file that does not exist under
`data/`, the run is identical to a run with no override (fallback to the
glob), and whenever the glob finds at least one recognized file the run
is a normal run, not the empty-state report. -/
theorem C10_override_fallback (fileVar : String) (argN : Int) (showSummary : Bool)
    (fs : List DataFile) (c : Collab)
    (hnz : trimStr fileVar ≠ "")
    (hmiss : ∀ g ∈ fs, g.relPath ≠ trimStr fileVar) :
    runPipeline fileVar argN showSummary fs c = runPipeline "" argN showSummary fs c
    ∧ (globTargets fs ≠ [] →
        (runPipeline fileVar argN showSummary fs c).emptyState = false) := by
  have hfind : fs.find? (fun g => g.relPath == trimStr fileVar) = none :=
    List.find?_eq_none.2 (fun g hg => by simp [hmiss g hg])
  have hdt : discoverTargets fileVar fs = globTargets fs := by
    simp [discoverTargets, hnz, hfind]
  have hdt0 : discoverTargets "" fs = globTargets fs := by
    have h0 : trimStr "" = "" := by decide
    simp [discoverTargets, h0]
  constructor
  · simp only [runPipeline, hdt, hdt0]
  · intro hg
    have hemp : (globTargets fs).isEmpty = false := by
      cases hgt : globTargets fs with
      | nil => exact absurd hgt hg
      | cons a l => rfl
    simp [runPipeline, hdt, hemp]

/-- Witness for C10: override `nope.csv` over a directory holding only
`a.csv`. -/
theorem C10_witness :
    (trimStr "nope.csv" ≠ "" ∧ ∀ g ∈ [wFileOk], g.relPath ≠ trimStr "nope.csv")
    ∧ (runPipeline "nope.csv" 0 false [wFileOk] wCollab =
        runPipeline "" 0 false [wFileOk] wCollab
      ∧ (globTargets [wFileOk] ≠ [] →
          (runPipeline "nope.csv" 0 false [wFileOk] wCollab).emptyState = false)) :=
  ⟨⟨by decide, by decide⟩,
   C10_override_fallback "nope.csv" 0 false [wFileOk] wCollab (by decide) (by decide)⟩

end Noema
